import Mathlib

/-!
Shallow embedding of the API-Documenter pipeline (scanner, parser, AI
analyzer, spec generator) and proofs about the claims of its specification.

JavaScript string operations are modelled over `List Char` so that every
definition is executable and kernel-reducible.  `String.toLowerCase` and
`String.toUpperCase` are modelled by the ASCII case maps (all pattern
constants in the source are ASCII).
-/

/-- JS `String.prototype.includes` helper: is `needle` a prefix of `hay`? -/
def charsPrefixOf : List Char → List Char → Bool
  | [], _ => true
  | _ :: _, [] => false
  | a :: as, b :: bs => a == b && charsPrefixOf as bs

/-- JS `String.prototype.includes` on character lists: substring containment. -/
def charsContains : List Char → List Char → Bool
  | [], needle => needle.isEmpty
  | c :: rest, needle => charsPrefixOf needle (c :: rest) || charsContains rest needle

/-- JS `s.includes(sub)`. -/
def jsIncludes (s sub : String) : Bool :=
  charsContains s.data sub.data

/-- JS `s.toLowerCase()` (ASCII case map). -/
def jsToLowerCase (s : String) : String :=
  ⟨s.data.map Char.toLower⟩

/-- JS `s.toUpperCase()` (ASCII case map). -/
def jsToUpperCase (s : String) : String :=
  ⟨s.data.map Char.toUpper⟩

/-- JS `s.startsWith(pre)`. -/
def jsStartsWith (s pre : String) : Bool :=
  charsPrefixOf pre.data s.data

/-- JS `s.endsWith(suf)`. -/
def jsEndsWith (s suf : String) : Bool :=
  charsPrefixOf suf.data.reverse s.data.reverse

/-- JS `s.split(sep)` where `sep` is a one-character separator. -/
def splitChars (sep : Char) (cs : List Char) : List (List Char) :=
  cs.foldr
    (fun c acc =>
      match acc with
      | [] => [[c]]
      | g :: gs => if c == sep then [] :: g :: gs else (c :: g) :: gs)
    [[]]

/-- JS `s.split(sep)` returning strings. -/
def jsSplitOn (s : String) (sep : Char) : List String :=
  (splitChars sep s.data).map (fun g => ⟨g⟩)

/-- JS `s.charAt(0).toUpperCase() + s.slice(1)`. -/
def capitalizeFirst (s : String) : String :=
  match s.data with
  | [] => ""
  | c :: rest => ⟨c.toUpper :: rest⟩

/-- Lexicographic comparison of character lists by code point, the order used
by the default JS `Array.prototype.sort` comparator on strings. -/
def lexLeChars : List Char → List Char → Bool
  | [], _ => true
  | _ :: _, [] => false
  | a :: as, b :: bs => if a = b then lexLeChars as bs else decide (a.toNat < b.toNat)

/-- The string order used by `routeFiles.sort()`. -/
def stringLe (a b : String) : Prop :=
  lexLeChars a.data b.data = true

instance : DecidableRel stringLe := fun a b => by
  unfold stringLe; infer_instance

/-! JSON values.  Object fields keep insertion order, exactly as JS objects
with non-numeric keys and `JSON.stringify` do; fields whose JS value is
`undefined` are omitted, matching their invisibility to `JSON.stringify`.
Arrays and objects carry their children through the companion types
`JsonList` and `JsonFields` (a mutual formulation of `List Json` and
`List (String × Json)` that lets equality be decidable). -/

mutual

inductive Json where
  | null : Json
  | bool (b : Bool) : Json
  | num (n : Int) : Json
  | str (s : String) : Json
  | arr (elems : JsonList) : Json
  | obj (fields : JsonFields) : Json
deriving DecidableEq

inductive JsonList where
  | nil : JsonList
  | cons (hd : Json) (tl : JsonList) : JsonList
deriving DecidableEq

inductive JsonFields where
  | nil : JsonFields
  | cons (name : String) (value : Json) (tl : JsonFields) : JsonFields
deriving DecidableEq

end

/-- Build a `JsonList` from a `List Json`. -/
def JsonList.ofList : List Json → JsonList
  | [] => JsonList.nil
  | j :: js => JsonList.cons j (JsonList.ofList js)

/-- Build `JsonFields` from an association list. -/
def JsonFields.ofList : List (String × Json) → JsonFields
  | [] => JsonFields.nil
  | (n, v) :: fs => JsonFields.cons n v (JsonFields.ofList fs)

/-- JSON array literal. -/
def jArr (xs : List Json) : Json :=
  Json.arr (JsonList.ofList xs)

/-- JSON object literal (field order = source literal order). -/
def jObj (fs : List (String × Json)) : Json :=
  Json.obj (JsonFields.ofList fs)

/-- JS truthiness of a JSON value. -/
def jsTruthy : Json → Bool
  | Json.null => false
  | Json.bool b => b
  | Json.num n => decide (n ≠ 0)
  | Json.str s => decide (s ≠ "")
  | Json.arr _ => true
  | Json.obj _ => true

/-- JS `x || d` for an optional JSON value (`none` models `undefined`/absent). -/
def jsOrJson (v : Option Json) (d : Json) : Json :=
  match v with
  | some x => if jsTruthy x then x else d
  | none => d

/-- JS `x || d` for an optional string (empty string is falsy). -/
def jsOrString (v : Option String) (d : String) : String :=
  match v with
  | some s => if s = "" then d else s
  | none => d

/-! ## Data model

`Route`, `Param` and `Analysis` mirror the records built by
`src/parser/index.js` and `src/ai/index.js`.  `Option` models JS
`undefined`/`null` for fields that may be absent.  The `handlerCode`,
`description` and `file` fields of a route are omitted: no claim below
concerns them. -/

/-- A path or analysis parameter.  The parser emits
`{name, in: 'path', required: true, type: 'string'}`; analysis parameters
coming back from the generative service may omit any field but `name`. -/
structure Param where
  name : String
  «in» : Option String
  required : Option Bool
  type : Option String
  description : Option String
deriving DecidableEq

/-- Result of `Parser.extractHandler`: an inline function literal or a named
reference. -/
inductive HandlerInfo where
  | inline (params : List String) (isAsync : Bool) : HandlerInfo
  | reference (name : String) : HandlerInfo
deriving DecidableEq

/-- A route record as produced by `Parser.extractRoute`. -/
structure Route where
  method : String
  path : String
  handler : Option HandlerInfo
  middleware : List String
  parameters : List Param
deriving DecidableEq

/-- The `examples` object of an analysis. -/
structure Examples where
  request : Json
  response : Json
deriving DecidableEq

/-- A fully populated analysis, as produced by
`AIAnalyzer.validateAndEnhanceAnalysis` or
`AIAnalyzer.generateFallbackAnalysis`.  Status-code values are `Option`
because the fallback builds entries whose value is `undefined`
(e.g. `'200': route.method === 'DELETE' ? undefined : 'Success'`), and
`Object.entries` still lists those keys. -/
structure Analysis where
  summary : String
  description : String
  requestSchema : Option Json
  responseSchema : Option Json
  parameters : List Param
  tags : List String
  examples : Option Examples
  statusCodes : Option (List (String × Option String))
deriving DecidableEq

/-- The raw JSON object parsed from a generative-service response, before
`validateAndEnhanceAnalysis` fills in defaults: every field may be missing. -/
structure RawAnalysis where
  summary : Option String
  description : Option String
  requestSchema : Option Json
  responseSchema : Option Json
  parameters : Option (List Param)
  tags : Option (List String)
  examples : Option Examples
  statusCodes : Option (List (String × Option String))
deriving DecidableEq

/-- JS `x || null` on an optional JSON value: a falsy value becomes `null`. -/
def jsOrNull (v : Option Json) : Option Json :=
  match v with
  | some x => if jsTruthy x then some x else none
  | none => none

/-- Truthiness of an optional JSON value (`undefined` and `null` are falsy). -/
def jsOptTruthy (v : Option Json) : Bool :=
  match v with
  | some x => jsTruthy x
  | none => false

/-! ## Parser (`src/parser/index.js`)

The Babel syntax tree is embedded as `Expr`: the node shapes inspected by
`extractRoute` are modelled exactly; every other node falls under
`otherExpr`.  `parseFile` takes the outcome of `parser.parse` as an
`Except` value: `Except.error` models a parse exception caught by the
`try/catch`, `Except.ok` a syntax tree. -/

/-- Function-parameter patterns, as classified by `extractHandler`. -/
inductive Pat where
  | ident (name : String) : Pat
  | objectPattern : Pat
  | otherPat : Pat

/-! Embedded Babel expressions.  `ExprList` is a mutual copy of `List Expr`
so that the traversal functions are structurally recursive. -/

mutual

inductive Expr where
  | ident (name : String) : Expr
  | strLit (value : String) : Expr
  | tmplLit (quasis : List String) (exprs : ExprList) : Expr
  | member (obj : Expr) (prop : Expr) : Expr
  | fnLit (params : List Pat) (isAsync : Bool) (body : ExprList) : Expr
  | call (callee : Expr) (args : ExprList) : Expr
  | otherExpr : Expr

inductive ExprList where
  | nil : ExprList
  | cons (hd : Expr) (tl : ExprList) : ExprList

end

/-- View an `ExprList` as a `List Expr`. -/
def ExprList.toList : ExprList → List Expr
  | ExprList.nil => []
  | ExprList.cons e es => e :: ExprList.toList es

/-- Build an `ExprList` from a `List Expr` (used to write concrete trees). -/
def ExprList.ofList : List Expr → ExprList
  | [] => ExprList.nil
  | e :: es => ExprList.cons e (ExprList.ofList es)

namespace Parser

/-- JS regex `\w` character class (ASCII word character). -/
def isWordChar (c : Char) : Bool :=
  c.isAlpha || c.isDigit || c == '_'

/-- Scanner for the global regex `:(\w+)`: `run` is the word-character run
accumulated (reversed) since the most recent unconsumed `:`, or `none` when
no `:` is pending.  A match is emitted when a pending nonempty run ends,
exactly where the regex engine would report `:` followed by a maximal
nonempty `\w+` run. -/
def colonTokensGo : Option (List Char) → List Char → List String
  | none, [] => []
  | some run, [] => if run.isEmpty then [] else [⟨':' :: run.reverse⟩]
  | none, c :: rest => colonTokensGo (if c == ':' then some [] else none) rest
  | some run, c :: rest =>
    if isWordChar c then colonTokensGo (some (c :: run)) rest
    else
      let tail := colonTokensGo (if c == ':' then some [] else none) rest
      if run.isEmpty then tail else (⟨':' :: run.reverse⟩ : String) :: tail

/-- All matches of the global regex `:(\w+)`, as the full matched tokens
(colon included), in order of occurrence. -/
def colonTokens (cs : List Char) : List String :=
  colonTokensGo none cs

/-- `Parser.extractParameters`: one parameter record per `:(\w+)` match. -/
def extractParameters (routePath : String) : List Param :=
  (colonTokens routePath.data).map (fun param =>
    { name := ⟨param.data.drop 1⟩,
      «in» := some "path",
      required := some true,
      type := some "string",
      description := none })

/-- Template-literal path rendering: quasis verbatim, each interpolation
slot `i` rendered as `:param{i}`. -/
def buildTemplatePath (i : Nat) (quasis : List String) (exprCount : Nat) : String :=
  match quasis with
  | [] => ""
  | q :: qs =>
    q ++ (if i < exprCount then ":param" ++ Nat.repr i else "")
      ++ buildTemplatePath (i + 1) qs exprCount

/-- `Parser.extractRoutePath`: string literals verbatim, template literals
via `buildTemplatePath`, anything else `null`. -/
def extractRoutePath : Expr → Option String
  | Expr.strLit v => some v
  | Expr.tmplLit quasis exprs => some (buildTemplatePath 0 quasis exprs.toList.length)
  | _ => none

/-- `Parser.extractHandler` on the last argument. -/
def extractHandler : Expr → Option HandlerInfo
  | Expr.fnLit params isAsync _ =>
    some (HandlerInfo.inline
      (params.map (fun p =>
        match p with
        | Pat.ident n => n
        | Pat.objectPattern => "destructured"
        | Pat.otherPat => "unknown"))
      isAsync)
  | Expr.ident n => some (HandlerInfo.reference n)
  | _ => none

/-- `Parser.extractMiddleware`: the arguments strictly between the path and
the handler; identifiers by name, calls of identifiers as `name()`. -/
def extractMiddleware (args : List Expr) : List String :=
  ((args.drop 1).dropLast).filterMap (fun arg =>
    match arg with
    | Expr.ident n => some n
    | Expr.call (Expr.ident n) _ => some (n ++ "()")
    | _ => none)

/-- The recognized HTTP verb names. -/
def httpMethods : List String :=
  ["get", "post", "put", "delete", "patch", "options", "head"]

/-- `Parser.extractRoute` on one call expression. -/
def extractRoute : Expr → Option Route
  | Expr.call (Expr.member _ (Expr.ident propName)) args =>
    let method := jsToLowerCase propName
    if httpMethods.contains method then
      match args.toList.head? >>= extractRoutePath with
      | some routePath =>
        some
          { method := jsToUpperCase method,
            path := routePath,
            handler := args.toList.getLast? >>= extractHandler,
            middleware := extractMiddleware args.toList,
            parameters := extractParameters routePath }
      | none => none
    else none
  | _ => none

/-! Pre-order collection of every call expression in a tree, matching the
Babel `traverse` visitation order. -/

mutual

def collectCalls : Expr → List Expr
  | Expr.call callee args =>
    Expr.call callee args :: (collectCalls callee ++ collectCallsList args)
  | Expr.member obj prop => collectCalls obj ++ collectCalls prop
  | Expr.tmplLit _ exprs => collectCallsList exprs
  | Expr.fnLit _ _ body => collectCallsList body
  | _ => []

def collectCallsList : ExprList → List Expr
  | ExprList.nil => []
  | ExprList.cons e es => collectCalls e ++ collectCallsList es

end

/-- `Parser.parseFile`: on a parse failure the `catch` logs a warning and
returns an empty route list; otherwise every call expression is offered to
`extractRoute`.  Returns `(routes, warnings)`. -/
def parseFile (ast : Except String (List Expr)) : List Route × List String :=
  match ast with
  | Except.error msg => ([], ["Warning: Could not parse: " ++ msg])
  | Except.ok program =>
    ((program.map collectCalls).flatten.filterMap extractRoute, [])

end Parser

/-! ## AI analyzer (`src/ai/index.js`)

`analyzeRoute` makes up to `maxRetries = 3` attempts against the generative
service.  One attempt covers the whole `try` body: transport failure,
missing content, JSON extraction and (repair) parsing.  Each attempt is
modelled by an `Except String RawAnalysis`: `Except.error` is any exception
thrown inside the `try` (timeout, transport error, unparseable payload),
`Except.ok` the raw analysis object that `extractJSON`/`parseJSON`
recovered. -/

namespace AIAnalyzer

/-- The path-segment filter `part => part && !part.startsWith(':')`. -/
def nonParamSegment (part : String) : Bool :=
  decide (part ≠ "") && !(jsStartsWith part ":")

/-- `AIAnalyzer.generateDefaultSummary`. -/
def generateDefaultSummary (route : Route) : String :=
  let pathParts := (jsSplitOn route.path '/').filter nonParamSegment
  let resource := pathParts.getLast?.getD "resource"
  match route.method with
  | "GET" => if jsIncludes route.path ":" then "Get " ++ resource else "List " ++ resource ++ "s"
  | "POST" => "Create " ++ resource
  | "PUT" => "Update " ++ resource
  | "PATCH" => "Update " ++ resource
  | "DELETE" => "Delete " ++ resource
  | m => m ++ " " ++ resource

/-- `AIAnalyzer.generateDefaultDescription`. -/
def generateDefaultDescription (route : Route) : String :=
  let pathParts := (jsSplitOn route.path '/').filter nonParamSegment
  let resource := pathParts.getLast?.getD "resource"
  match route.method with
  | "GET" =>
    if jsIncludes route.path ":" then "Retrieve a specific " ++ resource ++ " by ID"
    else "Retrieve a list of " ++ resource ++ "s"
  | "POST" => "Create a new " ++ resource
  | "PUT" => "Update an existing " ++ resource
  | "PATCH" => "Partially update an existing " ++ resource
  | "DELETE" => "Delete a " ++ resource
  | m => "Perform " ++ m ++ " operation on " ++ resource

/-- `AIAnalyzer.inferTag`: capitalized first non-parameter path segment. -/
def inferTag (path : String) : String :=
  let pathParts := (jsSplitOn path '/').filter nonParamSegment
  match pathParts with
  | p :: _ => capitalizeFirst p
  | [] => "API"

/-- `AIAnalyzer.generateFallbackAnalysis`, the deterministic template
strategy.  In the source the collection-GET response schema is written
`{type:'array', properties: undefined}`; the `undefined` field is omitted
here (it is invisible to `JSON.stringify` and to the emitted document). -/
def generateFallbackAnalysis (route : Route) : Analysis :=
  { summary := generateDefaultSummary route,
    description := generateDefaultDescription route,
    requestSchema :=
      if ["POST", "PUT", "PATCH"].contains route.method then
        some (jObj
          [("type", Json.str "object"),
           ("properties", jObj
             [("name", jObj
               [("type", Json.str "string"), ("description", Json.str "Name field")]),
              ("id", jObj
               [("type", Json.str "string"), ("description", Json.str "Identifier")])]),
           ("required", jArr [Json.str "name"])])
      else none,
    responseSchema :=
      if route.method == "GET" && !(jsIncludes route.path ":") then
        some (jObj [("type", Json.str "array")])
      else
        some (jObj
          [("type", Json.str "object"),
           ("properties", jObj
             [("id", jObj
               [("type", Json.str "string"), ("description", Json.str "Unique identifier")]),
              ("name", jObj
               [("type", Json.str "string"), ("description", Json.str "Name")]),
              ("createdAt", jObj
               [("type", Json.str "string"), ("format", Json.str "date-time")])])]),
    parameters := route.parameters,
    tags := [inferTag route.path],
    examples := some
      { request :=
          if ["POST", "PUT", "PATCH"].contains route.method then
            jObj [("name", Json.str "Example name")]
          else jObj [],
        response :=
          if route.method == "GET" && !(jsIncludes route.path ":") then
            jArr [jObj [("id", Json.str "1"), ("name", Json.str "Example item")]]
          else jObj [("id", Json.str "1"), ("name", Json.str "Example item")] },
    statusCodes := some
      [("200", if route.method == "DELETE" then none else some "Success"),
       ("201", if route.method == "POST" then some "Created successfully" else none),
       ("204", if route.method == "DELETE" then some "Deleted successfully" else none),
       ("400", some "Bad request"),
       ("404", if jsIncludes route.path ":" then some "Not found" else none),
       ("500", some "Internal server error")] }

/-- One step of the path-parameter merge inside
`validateAndEnhanceAnalysis`: push a missing path parameter. -/
def pushIfMissing (ps : List Param) (param : Param) : List Param :=
  if ps.any (fun p => p.name == param.name) then ps
  else
    ps ++ [{ name := param.name,
             type := some "string",
             description := some (param.name ++ " identifier"),
             required := some true,
             «in» := some "path" }]

/-- `AIAnalyzer.validateAndEnhanceAnalysis`: fill defaults, force
`requestSchema` to null for GET, then append missing path parameters. -/
def validateAndEnhanceAnalysis (analysis : RawAnalysis) (route : Route) : Analysis :=
  let enhanced : Analysis :=
    { summary := jsOrString analysis.summary (generateDefaultSummary route),
      description := jsOrString analysis.description (generateDefaultDescription route),
      requestSchema := jsOrNull analysis.requestSchema,
      responseSchema := some (jsOrJson analysis.responseSchema (jObj [("type", Json.str "object")])),
      parameters := analysis.parameters.getD [],
      tags := analysis.tags.getD [inferTag route.path],
      examples := some (analysis.examples.getD { request := jObj [], response := jObj [] }),
      statusCodes := some (analysis.statusCodes.getD [("200", some "Success")]) }
  let enhanced :=
    if route.method == "GET" && jsOptTruthy enhanced.requestSchema then
      { enhanced with requestSchema := none }
    else enhanced
  { enhanced with parameters := route.parameters.foldl pushIfMissing enhanced.parameters }

/-- `AIAnalyzer.analyzeRoute` with `maxRetries = 3`, the retry loop
unrolled over the three attempt outcomes: the first successful attempt is
validated and returned; when every attempt throws, the catch-all after the
loop returns the fallback analysis. -/
def analyzeRoute (route : Route)
    (o1 o2 o3 : Except String RawAnalysis) : Analysis :=
  match o1 with
  | Except.ok raw => validateAndEnhanceAnalysis raw route
  | Except.error _ =>
    match o2 with
    | Except.ok raw => validateAndEnhanceAnalysis raw route
    | Except.error _ =>
      match o3 with
      | Except.ok raw => validateAndEnhanceAnalysis raw route
      | Except.error _ => generateFallbackAnalysis route

end AIAnalyzer

/-! ## Spec generator (`src/generator/index.js`)

JS object maps built by key assignment are modelled as association lists
with `setKey` (replace in place if the key exists, else append), which is
the observable behaviour of assignment plus insertion-order iteration.
`info`, `servers` and `components` are flattened into the `Spec` record. -/

/-- JS `m[k] = v` on an object used as a map. -/
def setKey {β : Type} (m : List (String × β)) (k : String) (v : β) : List (String × β) :=
  if m.any (fun p => p.1 == k) then m.map (fun p => if p.1 == k then (k, v) else p)
  else m ++ [(k, v)]

/-- One `{route, analysis}` pair fed to the generator. -/
structure AnalysisResult where
  route : Route
  analysis : Analysis
deriving DecidableEq

/-- A media object under `content['application/json']`. -/
structure MediaObject where
  schema : Json
  «example» : Option Json
deriving DecidableEq

/-- One response entry. -/
structure ResponseObject where
  description : Option String
  content : Option MediaObject
deriving DecidableEq

/-- One OpenAPI parameter object. -/
structure SpecParameter where
  name : String
  «in» : String
  required : Bool
  schema : Json
  description : Option String
deriving DecidableEq

/-- An OpenAPI request body. -/
structure RequestBody where
  description : String
  required : Bool
  schema : Json
  «example» : Json
deriving DecidableEq

/-- One OpenAPI operation object. -/
structure Operation where
  summary : String
  description : String
  tags : List String
  parameters : List SpecParameter
  responses : List (String × ResponseObject)
  requestBody : Option RequestBody
deriving DecidableEq

/-- The assembled specification document (with `info`, `servers` and
`components` flattened into top-level fields). -/
structure Spec where
  openapi : String
  title : String
  version : String
  description : String
  serverUrl : String
  paths : List (String × List (String × Operation))
  schemas : List (String × Json)
deriving DecidableEq

namespace Generator

/-- The loop body of `Generator.groupResultsByPath`: append the result to
its path's group, creating the group on first sight of the path. -/
def groupStep (grouped : List (String × List AnalysisResult))
    (result : AnalysisResult) : List (String × List AnalysisResult) :=
  if grouped.any (fun g => g.1 == result.route.path) then
    grouped.map (fun g =>
      if g.1 == result.route.path then (g.1, g.2 ++ [result]) else g)
  else grouped ++ [(result.route.path, [result])]

/-- `Generator.groupResultsByPath`: group by the raw `route.path`, keeping
first-seen path order and input order inside each group. -/
def groupResultsByPath (analysisResults : List AnalysisResult) :
    List (String × List AnalysisResult) :=
  analysisResults.foldl groupStep []

/-- `analysis.examples?.request || {}`. -/
def exampleRequestOf (analysis : Analysis) : Json :=
  match analysis.examples with
  | some ex => if jsTruthy ex.request then ex.request else jObj []
  | none => jObj []

/-- `analysis.examples?.response || {}`. -/
def exampleResponseOf (analysis : Analysis) : Json :=
  match analysis.examples with
  | some ex => if jsTruthy ex.response then ex.response else jObj []
  | none => jObj []

/-- `Generator.generateParametersFromAnalysis`. -/
def generateParametersFromAnalysis (analysis : Analysis) : List SpecParameter :=
  analysis.parameters.map (fun param =>
    { name := param.name,
      «in» := jsOrString param.«in» "path",
      required := decide (param.required ≠ some false),
      schema := jObj [("type", Json.str (jsOrString param.type "string"))],
      description := param.description })

/-- `Generator.generateResponsesFromAnalysis`: one response per status-code
entry, a JSON body attached to `2xx` codes when a response schema exists,
or the fixed `200` fallback when the analysis has no status codes. -/
def generateResponsesFromAnalysis (analysis : Analysis) :
    List (String × ResponseObject) :=
  match analysis.statusCodes with
  | some codes =>
    codes.foldl
      (fun responses cd =>
        let content :=
          match analysis.responseSchema with
          | some rs =>
            if jsStartsWith cd.1 "2" && jsTruthy rs then
              some { schema := rs, «example» := some (exampleResponseOf analysis) }
            else none
          | none => none
        setKey responses cd.1 { description := cd.2, content := content })
      []
  | none =>
    [("200",
      { description := some "Success",
        content := some
          { schema := jsOrJson analysis.responseSchema (jObj [("type", Json.str "object")]),
            «example» := none } })]

/-- `Generator.generateOperationFromAnalysis`. -/
def generateOperationFromAnalysis (route : Route) (analysis : Analysis) : Operation :=
  { summary := analysis.summary,
    description := analysis.description,
    tags := analysis.tags,
    parameters := generateParametersFromAnalysis analysis,
    responses := generateResponsesFromAnalysis analysis,
    requestBody :=
      if ["POST", "PUT", "PATCH"].contains route.method then
        match analysis.requestSchema with
        | some rs =>
          if jsTruthy rs then
            some { description := "Request payload", required := true,
                   schema := rs, «example» := exampleRequestOf analysis }
          else none
        | none => none
      else none }

/-- `Generator.generateSchemaName`: capitalized last non-parameter path
segment (default `Resource`) plus the `Request`/`Response` suffix. -/
def generateSchemaName (route : Route) (suffix : String) : String :=
  let pathParts := (jsSplitOn route.path '/').filter AIAnalyzer.nonParamSegment
  let resource := pathParts.getLast?.getD "Resource"
  capitalizeFirst resource ++ suffix

/-- One conditional insertion into the schema map.  The source keys its
`schemaMap` by `JSON.stringify(schema)`; two schema values in this model
are equal exactly when their serializations are, so the map is keyed by the
value itself.  The accumulator is `(seen keys, insertions so far)`. -/
def insertSchema (acc : List Json × List (String × Json))
    (name : String) (schema? : Option Json) : List Json × List (String × Json) :=
  match schema? with
  | none => acc
  | some schema =>
    if jsTruthy schema then
      if schema ∈ acc.1 then acc
      else (schema :: acc.1, acc.2 ++ [(name, schema)])
    else acc

/-- Process one analysis result: request schema first, then response
schema, as in `extractReusableSchemas`. -/
def schemaStep (acc : List Json × List (String × Json)) (result : AnalysisResult) :
    List Json × List (String × Json) :=
  let acc1 := insertSchema acc (generateSchemaName result.route "Request")
    result.analysis.requestSchema
  insertSchema acc1 (generateSchemaName result.route "Response")
    result.analysis.responseSchema

/-- The `(name, schema)` assignments performed on `components.schemas`, in
execution order. -/
def schemaInsertions (analysisResults : List AnalysisResult) : List (String × Json) :=
  (analysisResults.foldl schemaStep ([], [])).2

/-- `Generator.extractReusableSchemas`: the resulting `components.schemas`
object. -/
def extractReusableSchemas (analysisResults : List AnalysisResult) :
    List (String × Json) :=
  (schemaInsertions analysisResults).foldl (fun m nv => setKey m nv.1 nv.2) []

/-- `Generator.generateSpec` with the default constructor options (the CLI
always builds `new Generator()`). -/
def generateSpec (analysisResults : List AnalysisResult) : Spec :=
  let groupedResults := groupResultsByPath analysisResults
  { openapi := "3.0.0",
    title := "API Documentation",
    version := "1.0.0",
    description := "AI-generated API documentation" ++ " (AI-Enhanced)",
    serverUrl := "http://localhost:3000",
    paths := groupedResults.map (fun g =>
      (g.1,
       g.2.foldl
         (fun ops result =>
           setKey ops (jsToLowerCase result.route.method)
             (generateOperationFromAnalysis result.route result.analysis))
         [])),
    schemas := extractReusableSchemas analysisResults }

end Generator

/-! ## Scanner (`src/scanner/index.js`)

The file system is embedded as `FsTree` (`FsEntries` is a mutual copy of
`List FsTree` keeping the walker structurally recursive).  A directory
carries a `readable` flag: `false` models `fs.readdir` throwing (the
permission-error branch).  A file carries its `statSync` outcome
(`statOk`, `size`) and a `hasRoutes` flag abstracting the content check
`containsRoutes` (whose regex internals no claim concerns).  The walker is
built with the default `new Scanner()` options, the only configuration the
CLI uses. -/

mutual

inductive FsTree where
  | file (name : String) (size : Nat) (statOk : Bool) (hasRoutes : Bool) : FsTree
  | dir (name : String) (readable : Bool) (entries : FsEntries) : FsTree

inductive FsEntries where
  | nil : FsEntries
  | cons (hd : FsTree) (tl : FsEntries) : FsEntries

end

/-- Build `FsEntries` from a list (used to write concrete trees). -/
def FsEntries.ofList : List FsTree → FsEntries
  | [] => FsEntries.nil
  | t :: ts => FsEntries.cons t (FsEntries.ofList ts)

namespace Scanner

/-- The default `options.include` list. -/
def includeExtensions : List String :=
  [".js", ".ts"]

/-- The default `options.exclude` list (directory names and file patterns
mixed, exactly as in the constructor). -/
def excludeOption : List String :=
  ["node_modules", "__tests__", "coverage", "dist", "build",
   ".git", ".vscode", ".idea", "logs", "tmp", "temp",
   ".test.", ".spec.", ".min.", ".bundle.",
   "package.json", "package-lock.json", "yarn.lock",
   ".env", ".gitignore", "README", "LICENSE",
   "webpack.", "babel.", "jest.", "tsconfig.",
   ".eslintrc", ".prettierrc"]

/-- `Scanner.isValidFile`: extension check. -/
def isValidFile (filename : String) : Bool :=
  includeExtensions.any (fun ext => jsEndsWith filename ext)

/-- The `testPatterns` regex battery of `isExcludedFile` (all with the `i`
flag, hence matched against the lowercased name). -/
def testPatternsMatch (filename : String) : Bool :=
  let lower := jsToLowerCase filename
  jsIncludes lower ".test." || jsIncludes lower ".spec." ||
  jsEndsWith lower "test.js" || jsEndsWith lower "spec.js" ||
  jsEndsWith lower ".test.js" || jsEndsWith lower ".spec.js" ||
  jsEndsWith lower ".test.ts" || jsEndsWith lower ".spec.ts" ||
  jsEndsWith lower ".min.js" || jsEndsWith lower ".bundle.js"

/-- The `configPatterns` filename list of `isExcludedFile`. -/
def configPatterns : List String :=
  ["package.json", "package-lock.json", "yarn.lock", "npm-shrinkwrap.json",
   "webpack.config.js", "webpack.prod.js", "webpack.dev.js",
   "babel.config.js", ".babelrc.js",
   "jest.config.js", "jest.setup.js",
   "tsconfig.json", "tsconfig.build.json",
   ".eslintrc.js", ".eslintrc.json",
   ".prettierrc.js", ".prettierrc.json",
   "rollup.config.js", "vite.config.js",
   "tailwind.config.js", "postcss.config.js"]

/-- `Scanner.isExcludedFile`. -/
def isExcludedFile (filename : String) : Bool :=
  testPatternsMatch filename ||
  configPatterns.contains (jsToLowerCase filename) ||
  excludeOption.any (fun pattern =>
    jsIncludes (jsToLowerCase filename) (jsToLowerCase pattern))

/-- The local `excludeDirs` list of `isExcludedDirectory`. -/
def excludeDirs : List String :=
  ["node_modules", "__tests__", "coverage", "dist", "build",
   ".git", ".vscode", ".idea", ".nyc_output",
   "logs", "tmp", "temp", "cache",
   ".next", ".nuxt", ".output",
   "public", "static", "assets"]

/-- `Scanner.isExcludedDirectory`: case-insensitive equality OR substring
containment against `excludeDirs`. -/
def isExcludedDirectory (dirname : String) : Bool :=
  excludeDirs.any (fun pattern =>
    jsToLowerCase dirname == jsToLowerCase pattern ||
    jsIncludes (jsToLowerCase dirname) (jsToLowerCase pattern))

/-- `Scanner.shouldProcessFile`: extension, exclusion patterns, then the
1 MB size ceiling (a failed `stat` rejects). -/
def shouldProcessFile (filename : String) (size : Nat) (statOk : Bool) : Bool :=
  isValidFile filename && !isExcludedFile filename &&
  (statOk && decide (size ≤ 1024 * 1024))

/-- `path.join(dir, entry.name)`. -/
def pathJoin (dir name : String) : String :=
  dir ++ "/" ++ name

/-! `searchDirectory` and its per-entry/per-list workers, returning
`(route files, warnings)`.  An unreadable directory yields no files and one
warning; an excluded directory is not recursed into at all. -/

mutual

def searchEntry (parentPath : String) : FsTree → List String × List String
  | FsTree.file name size statOk hasRoutes =>
    if shouldProcessFile name size statOk && hasRoutes then
      ([pathJoin parentPath name], [])
    else ([], [])
  | FsTree.dir name readable entries =>
    if isExcludedDirectory name then ([], [])
    else if readable then searchEntries (pathJoin parentPath name) entries
    else ([], ["Warning: Could not read directory " ++ pathJoin parentPath name])

def searchEntries (dirPath : String) : FsEntries → List String × List String
  | FsEntries.nil => ([], [])
  | FsEntries.cons t ts =>
    let r := searchEntry dirPath t
    let rest := searchEntries dirPath ts
    (r.1 ++ rest.1, r.2 ++ rest.2)

end

/-- `Scanner.searchDirectory` on a directory already reached: recurse when
`fs.readdir` succeeds, else record the permission warning.  (The
`searchEntry` case for a non-excluded subdirectory unfolds to exactly
this.) -/
def searchDirectory (dirPath : String) (readable : Bool) (entries : FsEntries) :
    List String × List String :=
  if readable then searchEntries dirPath entries
  else ([], ["Warning: Could not read directory " ++ dirPath])

/-- `Scanner.findRouteFiles`: walk the root directory, then sort the
collected files (`routeFiles.sort()`, the default lexicographic string
comparator). -/
def findRouteFiles (rootPath : String) (readable : Bool) (entries : FsEntries) :
    List String × List String :=
  let r := searchDirectory rootPath readable entries
  (List.insertionSort stringLe r.1, r.2)

end Scanner

/-! ## Concrete fixtures used by the scenario claims -/

/-- The syntax tree of a file containing `app.get('/users', handler)`. -/
def scenario1Program : List Expr :=
  [Expr.call (Expr.member (Expr.ident "app") (Expr.ident "get"))
    (ExprList.ofList [Expr.strLit "/users", Expr.ident "handler"])]

/-- The route that `parseFile` extracts from `scenario1Program`. -/
def usersGetRoute : Route :=
  { method := "GET", path := "/users",
    handler := some (HandlerInfo.reference "handler"),
    middleware := [], parameters := [] }

/-- A `GET /users/:id` route as the parser would produce it. -/
def usersIdRoute : Route :=
  { method := "GET", path := "/users/:id", handler := none, middleware := [],
    parameters := Parser.extractParameters "/users/:id" }

/-- A `POST /users` route. -/
def usersPostRoute : Route :=
  { method := "POST", path := "/users", handler := none, middleware := [],
    parameters := [] }

/-- A `PUT /users/:id` route. -/
def usersPutRoute : Route :=
  { method := "PUT", path := "/users/:id", handler := none, middleware := [],
    parameters := Parser.extractParameters "/users/:id" }

/-- The fixed request-schema literal of the template strategy (shared by
every body-bearing verb, hence identical across such routes). -/
def templateRequestSchema : Json :=
  jObj
    [("type", Json.str "object"),
     ("properties", jObj
       [("name", jObj
         [("type", Json.str "string"), ("description", Json.str "Name field")]),
        ("id", jObj
         [("type", Json.str "string"), ("description", Json.str "Identifier")])]),
     ("required", jArr [Json.str "name"])]

/-- Scenario 5 input: `POST /users` and `PUT /users/:id`, both with the
template analysis (so with structurally identical request schemas). -/
def scenario5Results : List AnalysisResult :=
  [{ route := usersPostRoute,
     analysis := AIAnalyzer.generateFallbackAnalysis usersPostRoute },
   { route := usersPutRoute,
     analysis := AIAnalyzer.generateFallbackAnalysis usersPutRoute }]

/-- A walker fixture: a root holding a `templates` directory (containing a
route file) and one plain route file. -/
def walkFixture : FsEntries :=
  FsEntries.ofList
    [FsTree.dir "templates" true
      (FsEntries.ofList [FsTree.file "routes.js" 10 true true]),
     FsTree.file "app.js" 10 true true]

/-! ## Claim theorems -/

/-- C2: route extraction never throws: when the file fails to parse
(`Except.error`), `parseFile` returns the empty route list together with
the logged warning, for every error message, so one malformed file cannot
abort a scan. -/
theorem C2_parse_failure_empty_routes (msg : String) :
    Parser.parseFile (Except.error msg) =
      ([], ["Warning: Could not parse: " ++ msg]) := rfl

/-- C3: when all three generative-service attempts fail (timeout, transport
error or unparseable payload, each modelled by `Except.error`),
`analyzeRoute` returns normally and its result is exactly the deterministic
template-strategy analysis `generateFallbackAnalysis` of the same route. -/
theorem C3_all_failures_fall_back_to_template (route : Route)
    (e1 e2 e3 : String) :
    AIAnalyzer.analyzeRoute route (Except.error e1) (Except.error e2) (Except.error e3) =
      AIAnalyzer.generateFallbackAnalysis route := rfl

/-- C4: the template strategy always returns a non-null response schema,
returns a null request schema for GET and DELETE routes, and attaches a
request schema only for POST, PUT and PATCH. -/
theorem C4_fallback_schema_discipline (route : Route) :
    (∃ s, (AIAnalyzer.generateFallbackAnalysis route).responseSchema = some s) ∧
    (route.method = "GET" ∨ route.method = "DELETE" →
      (AIAnalyzer.generateFallbackAnalysis route).requestSchema = none) ∧
    ((AIAnalyzer.generateFallbackAnalysis route).requestSchema ≠ none →
      route.method ∈ ["POST", "PUT", "PATCH"]) := by
  unfold AIAnalyzer.generateFallbackAnalysis
  refine ⟨?_, ?_, ?_⟩
  · dsimp only
    split <;> exact ⟨_, rfl⟩
  · intro h
    rcases h with h | h <;> simp [h]
  · intro h
    dsimp only at h
    by_cases hc : ["POST", "PUT", "PATCH"].contains route.method
    · simpa using hc
    · rw [if_neg hc] at h
      exact absurd rfl h

/-- Closed witness for C4 at the concrete routes `GET /users` and
`DELETE /users/:id`. -/
theorem C4_witness :
    (AIAnalyzer.generateFallbackAnalysis usersGetRoute).requestSchema = none ∧
    (AIAnalyzer.generateFallbackAnalysis
      { usersIdRoute with method := "DELETE" }).requestSchema = none :=
  ⟨(C4_fallback_schema_discipline usersGetRoute).2.1 (Or.inl rfl),
   (C4_fallback_schema_discipline _).2.1 (Or.inr rfl)⟩

/-- C9: `validateAndEnhanceAnalysis` forces the request schema to null for
GET routes even when the service returned one, while a DELETE route keeps a
returned (object-valued, hence truthy) request schema. -/
theorem C9_get_nulled_delete_kept (analysis : RawAnalysis) (route : Route) :
    (route.method = "GET" →
      (AIAnalyzer.validateAndEnhanceAnalysis analysis route).requestSchema = none) ∧
    (route.method = "DELETE" → ∀ fields,
      analysis.requestSchema = some (Json.obj fields) →
      (AIAnalyzer.validateAndEnhanceAnalysis analysis route).requestSchema =
        some (Json.obj fields)) := by
  constructor
  · intro h
    unfold AIAnalyzer.validateAndEnhanceAnalysis
    cases hr : analysis.requestSchema with
    | none => simp [h, jsOrNull, jsOptTruthy]
    | some v =>
      by_cases ht : jsTruthy v = true
      · simp [h, hr, jsOrNull, jsOptTruthy, ht]
      · rw [Bool.not_eq_true] at ht
        simp [h, hr, jsOrNull, jsOptTruthy, ht]
  · intro h fields hr
    unfold AIAnalyzer.validateAndEnhanceAnalysis
    simp [h, hr, jsOrNull, jsOptTruthy, jsTruthy]

/-- Closed witness for C9: a raw analysis carrying a request schema, fed to
a GET route (schema dropped) and to a DELETE route (schema kept). -/
theorem C9_witness :
    (AIAnalyzer.validateAndEnhanceAnalysis
      { summary := none, description := none,
        requestSchema := some (jObj [("type", Json.str "object")]),
        responseSchema := none, parameters := none, tags := none,
        examples := none, statusCodes := none }
      usersGetRoute).requestSchema = none ∧
    (AIAnalyzer.validateAndEnhanceAnalysis
      { summary := none, description := none,
        requestSchema := some (jObj [("type", Json.str "object")]),
        responseSchema := none, parameters := none, tags := none,
        examples := none, statusCodes := none }
      { usersGetRoute with method := "DELETE" }).requestSchema =
      some (jObj [("type", Json.str "object")]) :=
  ⟨(C9_get_nulled_delete_kept _ _).1 rfl,
   (C9_get_nulled_delete_kept _ _).2 rfl _ rfl⟩

/-- C5 counterexample: the claim says duplicate `:name` tokens are merged
into a single parameter entry, but on `/files/:id/versions/:id` the parser
emits two entries named `id` (one per occurrence), so the name list is not
duplicate-free. -/
theorem C5_counterexample :
    (Parser.extractParameters "/files/:id/versions/:id").map Param.name = ["id", "id"] ∧
    ¬ ((Parser.extractParameters "/files/:id/versions/:id").map Param.name).Nodup := by
  decide

/-- C5 amended: the parameter list has one entry per `:name` occurrence in
the raw path (in order, duplicates kept, not merged), and every entry is a
required path parameter of type string; on the duplicate-token path the
result is exactly the two `id` entries. -/
theorem C5_amended_one_entry_per_occurrence (routePath : String) :
    ((Parser.extractParameters routePath).map Param.name =
      (Parser.colonTokens routePath.data).map (fun tok => (⟨tok.data.drop 1⟩ : String))) ∧
    (∀ p ∈ Parser.extractParameters routePath,
      p.«in» = some "path" ∧ p.required = some true ∧ p.type = some "string") ∧
    Parser.extractParameters "/files/:id/versions/:id" =
      [{ name := "id", «in» := some "path", required := some true,
         type := some "string", description := none },
       { name := "id", «in» := some "path", required := some true,
         type := some "string", description := none }] := by
  refine ⟨?_, ?_, by decide⟩
  · simp [Parser.extractParameters]
  · intro p hp
    simp only [Parser.extractParameters, List.mem_map] at hp
    obtain ⟨tok, -, rfl⟩ := hp
    exact ⟨rfl, rfl, rfl⟩

/-- Closed witness for C5 (amended) at `/users/:id`. -/
theorem C5_witness :
    ({ name := "id", «in» := some "path", required := some true,
       type := some "string", description := none } : Param).«in» = some "path" ∧
    ({ name := "id", «in» := some "path", required := some true,
       type := some "string", description := none } : Param).required = some true :=
  ⟨((C5_amended_one_entry_per_occurrence "/users/:id").2.1 _ (by decide)).1,
   ((C5_amended_one_entry_per_occurrence "/users/:id").2.1 _ (by decide)).2.1⟩

/-- C6 counterexample: on the file `app.get('/users', handler)` extraction
does yield the single `GET /users` route, but the template summary is
`"List userss"` (the resource token `users` plus a literal `s`), not
`"List users"` as the claim states. -/
theorem C6_counterexample :
    (Parser.parseFile (Except.ok scenario1Program)).1 = [usersGetRoute] ∧
    (AIAnalyzer.generateFallbackAnalysis usersGetRoute).summary ≠ "List users" := by
  decide

/-- C6 amended: from `app.get('/users', handler)` extraction yields exactly
one route `GET /users` with no parameters; its template analysis has
summary `"List userss"`; and in the assembled spec the `/users` path has a
`get` operation whose `200` response carries the array response schema. -/
theorem C6_amended_scenario1 :
    (Parser.parseFile (Except.ok scenario1Program)).1 = [usersGetRoute] ∧
    usersGetRoute.method = "GET" ∧ usersGetRoute.path = "/users" ∧
    usersGetRoute.parameters = [] ∧
    (AIAnalyzer.generateFallbackAnalysis usersGetRoute).summary = "List userss" ∧
    ((((Generator.generateSpec
          [{ route := usersGetRoute,
             analysis := AIAnalyzer.generateFallbackAnalysis usersGetRoute }]).paths.lookup
        "/users").bind (fun ops => ops.lookup "get")).bind
        (fun op => op.responses.lookup "200")).bind
        (fun resp => resp.content.map MediaObject.schema) =
      some (jObj [("type", Json.str "array")]) := by
  decide

/-- C1 counterexample: assembling the single analyzed route
`GET /users/:id` produces a spec whose only path key is the raw
`/users/:id`; the normalized key `/users/{id}` appears nowhere, so the
`:name` → `{name}` rewriting the claim describes never happens. -/
theorem C1_counterexample :
    (Generator.generateSpec
        [{ route := usersIdRoute,
           analysis := AIAnalyzer.generateFallbackAnalysis usersIdRoute }]).paths.map
        Prod.fst = ["/users/:id"] ∧
    "/users/{id}" ∉
      (Generator.generateSpec
        [{ route := usersIdRoute,
           analysis := AIAnalyzer.generateFallbackAnalysis usersIdRoute }]).paths.map
        Prod.fst := by
  decide

/-- Updating a group in place preserves the key list. -/
theorem groupStep_keys (acc : List (String × List AnalysisResult))
    (r : AnalysisResult) (key : String) :
    key ∈ (Generator.groupStep acc r).map Prod.fst ↔
      key ∈ acc.map Prod.fst ∨ key = r.route.path := by
  unfold Generator.groupStep
  split
  case isTrue h =>
    have hkeys :
        (acc.map (fun g => if g.1 == r.route.path then (g.1, g.2 ++ [r]) else g)).map
          Prod.fst = acc.map Prod.fst := by
      rw [List.map_map]
      apply List.map_congr_left
      intro g _
      by_cases hg : g.1 = r.route.path <;> simp [hg]
    rw [hkeys]
    constructor
    · exact Or.inl
    · rintro (hk | rfl)
      · exact hk
      · simp only [List.any_eq_true, beq_iff_eq] at h
        obtain ⟨g, hg, hge⟩ := h
        exact List.mem_map.mpr ⟨g, hg, hge⟩
  case isFalse h =>
    simp

/-- Keys accumulated by the grouping fold: the starting keys plus one key
per distinct route path. -/
theorem foldl_groupStep_keys (rs : List AnalysisResult) :
    ∀ (acc : List (String × List AnalysisResult)) (key : String),
    key ∈ ((rs.foldl Generator.groupStep acc).map Prod.fst) ↔
      key ∈ acc.map Prod.fst ∨ ∃ r ∈ rs, r.route.path = key := by
  induction rs with
  | nil => intro acc key; simp
  | cons r rs ih =>
    intro acc key
    rw [List.foldl_cons, ih, groupStep_keys]
    constructor
    · rintro ((hk | rfl) | ⟨r', hr', h⟩)
      · exact Or.inl hk
      · exact Or.inr ⟨r, List.mem_cons_self r rs, rfl⟩
      · exact Or.inr ⟨r', List.mem_cons_of_mem r hr', h⟩
    · rintro (hk | ⟨r', hr', h⟩)
      · exact Or.inl (Or.inl hk)
      · rcases List.mem_cons.mp hr' with rfl | hr2
        · exact Or.inl (Or.inr h.symm)
        · exact Or.inr ⟨r', hr2, h⟩

/-- The spec's path keys are the grouping keys. -/
theorem generateSpec_path_keys (analysisResults : List AnalysisResult) :
    (Generator.generateSpec analysisResults).paths.map Prod.fst =
      (Generator.groupResultsByPath analysisResults).map Prod.fst := by
  unfold Generator.generateSpec
  dsimp only
  rw [List.map_map]
  exact List.map_congr_left (fun g _ => rfl)

/-- C1 amended: the assembler applies no `:name` → `{name}` normalization
at all (nor does any earlier stage): the spec's path keys are exactly the
raw extracted route paths, so `/users/:id` appears under `/users/:id`. -/
theorem C1_amended_path_keys_are_raw_paths
    (analysisResults : List AnalysisResult) (key : String) :
    key ∈ (Generator.generateSpec analysisResults).paths.map Prod.fst ↔
      ∃ r ∈ analysisResults, r.route.path = key := by
  rw [generateSpec_path_keys]
  unfold Generator.groupResultsByPath
  rw [foldl_groupStep_keys]
  simp

/-- Properties of one conditional insertion into the schema map: the seen
set tracks the inserted values, values stay duplicate-free, a value is
present afterwards iff it was present before or is this (truthy) schema,
and every insertion carries this name or an earlier one. -/
theorem insertSchema_props (acc : List Json × List (String × Json))
    (n : String) (s? : Option Json)
    (hI : ∀ v, v ∈ acc.1 ↔ v ∈ acc.2.map Prod.snd)
    (hN : (acc.2.map Prod.snd).Nodup) :
    (∀ v, v ∈ (Generator.insertSchema acc n s?).1 ↔
      v ∈ (Generator.insertSchema acc n s?).2.map Prod.snd) ∧
    ((Generator.insertSchema acc n s?).2.map Prod.snd).Nodup ∧
    (∀ v, v ∈ (Generator.insertSchema acc n s?).2.map Prod.snd ↔
      v ∈ acc.2.map Prod.snd ∨ (s? = some v ∧ jsTruthy v = true)) ∧
    (∀ nv ∈ (Generator.insertSchema acc n s?).2,
      nv ∈ acc.2 ∨ (s? = some nv.2 ∧ nv.1 = n)) := by
  match s? with
  | none =>
    refine ⟨hI, hN, ?_, ?_⟩
    · intro v
      simp [Generator.insertSchema]
    · intro nv hnv
      exact Or.inl (by simpa [Generator.insertSchema] using hnv)
  | some s =>
    simp only [Generator.insertSchema]
    by_cases ht : jsTruthy s = true
    · by_cases hm : s ∈ acc.1
      · rw [if_pos ht, if_pos hm]
        refine ⟨hI, hN, ?_, fun nv hnv => Or.inl hnv⟩
        intro v
        constructor
        · exact Or.inl
        · rintro (hv | ⟨hsv, -⟩)
          · exact hv
          · cases Option.some.inj hsv
            exact (hI s).mp hm
      · rw [if_pos ht, if_neg hm]
        have hsv : s ∉ acc.2.map Prod.snd := fun hc => hm ((hI s).mpr hc)
        refine ⟨?_, ?_, ?_, ?_⟩
        · intro v
          simp only [List.mem_cons, List.map_append, List.mem_append, hI]
          simp [or_comm]
        · simp only [List.map_append]
          simp [List.nodup_append, hN, hsv]
        · intro v
          simp only [List.map_append, List.mem_append, List.map_cons,
            List.map_nil, List.mem_singleton, Option.some.injEq]
          constructor
          · rintro (hv | rfl)
            · exact Or.inl hv
            · exact Or.inr ⟨rfl, ht⟩
          · rintro (hv | ⟨rfl, -⟩)
            · exact Or.inl hv
            · exact Or.inr rfl
        · intro nv hnv
          rcases List.mem_append.mp hnv with h | h
          · exact Or.inl h
          · rcases List.mem_singleton.mp h with rfl
            exact Or.inr ⟨rfl, rfl⟩
    · rw [if_neg ht]
      refine ⟨hI, hN, ?_, fun nv hnv => Or.inl hnv⟩
      intro v
      constructor
      · exact Or.inl
      · rintro (hv | ⟨hsv, htv⟩)
        · exact hv
        · cases Option.some.inj hsv
          exact absurd htv ht

/-- Properties of processing one analysis result (request schema then
response schema) in `extractReusableSchemas`. -/
theorem schemaStep_props (acc : List Json × List (String × Json))
    (r : AnalysisResult)
    (hI : ∀ v, v ∈ acc.1 ↔ v ∈ acc.2.map Prod.snd)
    (hN : (acc.2.map Prod.snd).Nodup) :
    (∀ v, v ∈ (Generator.schemaStep acc r).1 ↔
      v ∈ (Generator.schemaStep acc r).2.map Prod.snd) ∧
    ((Generator.schemaStep acc r).2.map Prod.snd).Nodup ∧
    (∀ v, v ∈ (Generator.schemaStep acc r).2.map Prod.snd ↔
      v ∈ acc.2.map Prod.snd ∨ (jsTruthy v = true ∧
        (r.analysis.requestSchema = some v ∨ r.analysis.responseSchema = some v))) ∧
    (∀ nv ∈ (Generator.schemaStep acc r).2, nv ∈ acc.2 ∨
      (r.analysis.requestSchema = some nv.2 ∧
        nv.1 = Generator.generateSchemaName r.route "Request") ∨
      (r.analysis.responseSchema = some nv.2 ∧
        nv.1 = Generator.generateSchemaName r.route "Response")) := by
  have h1 := insertSchema_props acc
    (Generator.generateSchemaName r.route "Request") r.analysis.requestSchema hI hN
  have h2 := insertSchema_props
    (Generator.insertSchema acc
      (Generator.generateSchemaName r.route "Request") r.analysis.requestSchema)
    (Generator.generateSchemaName r.route "Response") r.analysis.responseSchema
    h1.1 h1.2.1
  simp only [Generator.schemaStep]
  refine ⟨h2.1, h2.2.1, ?_, ?_⟩
  · intro v
    rw [h2.2.2.1 v, h1.2.2.1 v]
    constructor
    · rintro ((hv | ⟨hreq, ht⟩) | ⟨hresp, ht⟩)
      · exact Or.inl hv
      · exact Or.inr ⟨ht, Or.inl hreq⟩
      · exact Or.inr ⟨ht, Or.inr hresp⟩
    · rintro (hv | ⟨ht, hreq | hresp⟩)
      · exact Or.inl (Or.inl hv)
      · exact Or.inl (Or.inr ⟨hreq, ht⟩)
      · exact Or.inr ⟨hresp, ht⟩
  · intro nv hnv
    rcases h2.2.2.2 nv hnv with h | h
    · rcases h1.2.2.2 nv h with h0 | h0
      · exact Or.inl h0
      · exact Or.inr (Or.inl h0)
    · exact Or.inr (Or.inr h)

/-- Properties of the whole schema-collection fold. -/
theorem foldl_schemaStep_props (rs : List AnalysisResult) :
    ∀ (acc : List Json × List (String × Json)),
    (∀ v, v ∈ acc.1 ↔ v ∈ acc.2.map Prod.snd) →
    (acc.2.map Prod.snd).Nodup →
    (∀ v, v ∈ (rs.foldl Generator.schemaStep acc).1 ↔
      v ∈ (rs.foldl Generator.schemaStep acc).2.map Prod.snd) ∧
    ((rs.foldl Generator.schemaStep acc).2.map Prod.snd).Nodup ∧
    (∀ v, v ∈ (rs.foldl Generator.schemaStep acc).2.map Prod.snd ↔
      v ∈ acc.2.map Prod.snd ∨ (jsTruthy v = true ∧ ∃ r ∈ rs,
        r.analysis.requestSchema = some v ∨ r.analysis.responseSchema = some v)) ∧
    (∀ nv ∈ (rs.foldl Generator.schemaStep acc).2, nv ∈ acc.2 ∨ ∃ r ∈ rs,
      (r.analysis.requestSchema = some nv.2 ∧
        nv.1 = Generator.generateSchemaName r.route "Request") ∨
      (r.analysis.responseSchema = some nv.2 ∧
        nv.1 = Generator.generateSchemaName r.route "Response")) := by
  induction rs with
  | nil =>
    intro acc hI hN
    exact ⟨hI, hN, by simp, fun nv hnv => Or.inl hnv⟩
  | cons r rs ih =>
    intro acc hI hN
    have hs := schemaStep_props acc r hI hN
    have hf := ih (Generator.schemaStep acc r) hs.1 hs.2.1
    rw [List.foldl_cons]
    refine ⟨hf.1, hf.2.1, ?_, ?_⟩
    · intro v
      rw [hf.2.2.1 v, hs.2.2.1 v]
      constructor
      · rintro ((hv | ⟨ht, hv⟩) | ⟨ht, r', hr', hv⟩)
        · exact Or.inl hv
        · exact Or.inr ⟨ht, r, List.mem_cons_self r rs, hv⟩
        · exact Or.inr ⟨ht, r', List.mem_cons_of_mem r hr', hv⟩
      · rintro (hv | ⟨ht, r', hr', hv⟩)
        · exact Or.inl (Or.inl hv)
        · rcases List.mem_cons.mp hr' with rfl | hr2
          · exact Or.inl (Or.inr ⟨ht, hv⟩)
          · exact Or.inr ⟨ht, r', hr2, hv⟩
    · intro nv hnv
      rcases hf.2.2.2 nv hnv with h | ⟨r', hr', hp⟩
      · rcases hs.2.2.2 nv h with h0 | h0
        · exact Or.inl h0
        · exact Or.inr ⟨r, List.mem_cons_self r rs, h0⟩
      · exact Or.inr ⟨r', List.mem_cons_of_mem r hr', hp⟩

/-- C8: schema deduplication is by structural (serialized-form) equality:
the sequence of assignments to `components.schemas` never writes the same
schema value twice; a schema value is written iff some route's analysis
carries it (truthily); every written entry is named after the owning
route's resource token plus its `Request`/`Response` suffix; and on the
scenario-5 input (`POST /users` and `PUT /users/:id` with identical
request schemas) exactly one `components.schemas` entry carries that
schema, named `UsersRequest`. -/
theorem C8_schema_dedup_structural (analysisResults : List AnalysisResult) :
    ((Generator.schemaInsertions analysisResults).map Prod.snd).Nodup ∧
    (∀ s : Json, s ∈ (Generator.schemaInsertions analysisResults).map Prod.snd ↔
      jsTruthy s = true ∧ ∃ r ∈ analysisResults,
        r.analysis.requestSchema = some s ∨ r.analysis.responseSchema = some s) ∧
    (∀ nv ∈ Generator.schemaInsertions analysisResults, ∃ r ∈ analysisResults,
      (r.analysis.requestSchema = some nv.2 ∧
        nv.1 = Generator.generateSchemaName r.route "Request") ∨
      (r.analysis.responseSchema = some nv.2 ∧
        nv.1 = Generator.generateSchemaName r.route "Response")) ∧
    ((Generator.extractReusableSchemas scenario5Results).filter
      (fun nv => nv.2 == templateRequestSchema)).map Prod.fst = ["UsersRequest"] := by
  have h := foldl_schemaStep_props analysisResults ([], []) (by simp) (by simp)
  unfold Generator.schemaInsertions
  refine ⟨h.2.1, ?_, ?_, by decide⟩
  · intro s
    rw [h.2.2.1 s]
    simp
  · intro nv hnv
    rcases h.2.2.2 nv hnv with h0 | hex
    · simp at h0
    · exact hex

/-- Closed witness for C8: the shared template request schema of scenario 5
is carried by one of the two routes. -/
theorem C8_witness :
    jsTruthy templateRequestSchema = true ∧
    ∃ r ∈ scenario5Results,
      r.analysis.requestSchema = some templateRequestSchema ∨
      r.analysis.responseSchema = some templateRequestSchema :=
  ((C8_schema_dedup_structural scenario5Results).2.1 templateRequestSchema).mp (by decide)

/-- C10: directory exclusion is case-insensitive substring containment, not
exact matching: `templates` (contains `temp`), `cached-data` (contains
`cache`) and `buildings` (contains `build`) are all excluded even though
none of them is in the exclusion list; in general any directory whose
lowercased name contains a lowercased excluded token is excluded, and an
excluded directory is pruned whole — the walker returns nothing from it and
never looks at its descendants. -/
theorem C10_substring_directory_exclusion :
    (Scanner.isExcludedDirectory "templates" = true ∧
     Scanner.isExcludedDirectory "cached-data" = true ∧
     Scanner.isExcludedDirectory "buildings" = true) ∧
    ("templates" ∉ Scanner.excludeDirs ∧
     "cached-data" ∉ Scanner.excludeDirs ∧
     "buildings" ∉ Scanner.excludeDirs) ∧
    (∀ dirname pattern, pattern ∈ Scanner.excludeDirs →
      jsIncludes (jsToLowerCase dirname) (jsToLowerCase pattern) = true →
      Scanner.isExcludedDirectory dirname = true) ∧
    (∀ parentPath name readable entries,
      Scanner.isExcludedDirectory name = true →
      Scanner.searchEntry parentPath (FsTree.dir name readable entries) = ([], [])) := by
  refine ⟨by decide, by decide, ?_, ?_⟩
  · intro dirname pattern hmem hinc
    unfold Scanner.isExcludedDirectory
    rw [List.any_eq_true]
    exact ⟨pattern, hmem, by rw [hinc, Bool.or_true]⟩
  · intro parentPath name readable entries hex
    simp [Scanner.searchEntry, hex]

/-- Closed witness for C10: a name merely containing `temp` is excluded and
a `templates` directory containing a route file contributes nothing. -/
theorem C10_witness :
    Scanner.isExcludedDirectory "MyTemplates" = true ∧
    Scanner.searchEntry "/proj"
      (FsTree.dir "templates" true
        (FsEntries.ofList [FsTree.file "routes.js" 10 true true])) = ([], []) :=
  ⟨C10_substring_directory_exclusion.2.2.1 "MyTemplates" "temp" (by decide) (by decide),
   C10_substring_directory_exclusion.2.2.2 "/proj" "templates" true _ (by decide)⟩

/-- Characters with equal code points are equal. -/
theorem char_toNat_injective {a b : Char} (h : a.toNat = b.toNat) : a = b :=
  Char.ext (UInt32.toNat.inj h)

/-- Transitivity of the lexicographic comparison. -/
theorem lexLeChars_trans :
    ∀ (as bs cs : List Char), lexLeChars as bs = true → lexLeChars bs cs = true →
      lexLeChars as cs = true
  | [], _, _ => by
    intro _ _
    simp [lexLeChars]
  | a :: as, [], cs => by
    intro h1 _
    simp [lexLeChars] at h1
  | a :: as, b :: bs, [] => by
    intro _ h2
    simp [lexLeChars] at h2
  | a :: as, b :: bs, c :: cs => by
    intro h1 h2
    simp only [lexLeChars] at h1 h2 ⊢
    by_cases hab : a = b
    · subst hab
      by_cases hbc : a = c
      · subst hbc
        simp only [if_pos rfl] at h1 h2 ⊢
        exact lexLeChars_trans as bs cs h1 h2
      · rw [if_pos rfl] at h1
        rw [if_neg hbc] at h2 ⊢
        exact h2
    · by_cases hbc : b = c
      · subst hbc
        rw [if_neg hab] at h1 ⊢
        exact h1
      · rw [if_neg hab] at h1
        rw [if_neg hbc] at h2
        have hac : a.toNat < c.toNat :=
          Nat.lt_trans (of_decide_eq_true h1) (of_decide_eq_true h2)
        have hne : a ≠ c := by
          intro heq
          subst heq
          exact Nat.lt_irrefl _ hac
        rw [if_neg hne]
        exact decide_eq_true hac

/-- Totality of the lexicographic comparison. -/
theorem lexLeChars_total :
    ∀ (as bs : List Char), lexLeChars as bs = true ∨ lexLeChars bs as = true
  | [], _ => Or.inl (by simp [lexLeChars])
  | a :: as, [] => Or.inr (by simp [lexLeChars])
  | a :: as, b :: bs => by
    by_cases hab : a = b
    · subst hab
      rcases lexLeChars_total as bs with h | h
      · exact Or.inl (by simpa [lexLeChars] using h)
      · exact Or.inr (by simpa [lexLeChars] using h)
    · have hne : a.toNat ≠ b.toNat := fun hc => hab (char_toNat_injective hc)
      rcases Nat.lt_or_ge a.toNat b.toNat with h | h
      · refine Or.inl ?_
        simp only [lexLeChars, if_neg hab]
        exact decide_eq_true h
      · refine Or.inr ?_
        simp only [lexLeChars, if_neg (Ne.symm hab)]
        exact decide_eq_true (Nat.lt_of_le_of_ne h (Ne.symm hne))

instance : IsTrans String stringLe :=
  ⟨fun a b c h1 h2 => lexLeChars_trans a.data b.data c.data h1 h2⟩

instance : IsTotal String stringLe :=
  ⟨fun a b => lexLeChars_total a.data b.data⟩

/-! Characterization of every file path the walker emits: it is the path of
a file that passed `shouldProcessFile`, reached through a chain of
non-excluded directories. -/

mutual

theorem searchEntry_files_char :
    ∀ (parentPath : String) (t : FsTree) (p : String),
      p ∈ (Scanner.searchEntry parentPath t).1 →
      ∃ (ds : List String) (name : String) (size : Nat) (statOk : Bool),
        (∀ d ∈ ds, Scanner.isExcludedDirectory d = false) ∧
        Scanner.shouldProcessFile name size statOk = true ∧
        p = Scanner.pathJoin (ds.foldl Scanner.pathJoin parentPath) name
  | parentPath, FsTree.file name size statOk hasRoutes, p, hp => by
    simp only [Scanner.searchEntry] at hp
    split at hp
    case isTrue h =>
      rcases List.mem_singleton.mp hp with rfl
      exact ⟨[], name, size, statOk, by simp,
        (Bool.and_eq_true _ _ |>.mp h).1, rfl⟩
    case isFalse h => cases hp
  | parentPath, FsTree.dir name readable entries, p, hp => by
    simp only [Scanner.searchEntry] at hp
    by_cases hex : Scanner.isExcludedDirectory name = true
    · rw [if_pos hex] at hp
      cases hp
    · rw [if_neg hex] at hp
      rw [Bool.not_eq_true] at hex
      by_cases hrd : readable = true
      · rw [if_pos hrd] at hp
        obtain ⟨ds, fname, size, ok, hds, hsp, hpath⟩ :=
          searchEntries_files_char (Scanner.pathJoin parentPath name) entries p hp
        refine ⟨name :: ds, fname, size, ok, ?_, hsp, hpath⟩
        intro d hd
        rcases List.mem_cons.mp hd with rfl | hd2
        · exact hex
        · exact hds d hd2
      · rw [if_neg hrd] at hp
        cases hp

theorem searchEntries_files_char :
    ∀ (dirPath : String) (ts : FsEntries) (p : String),
      p ∈ (Scanner.searchEntries dirPath ts).1 →
      ∃ (ds : List String) (name : String) (size : Nat) (statOk : Bool),
        (∀ d ∈ ds, Scanner.isExcludedDirectory d = false) ∧
        Scanner.shouldProcessFile name size statOk = true ∧
        p = Scanner.pathJoin (ds.foldl Scanner.pathJoin dirPath) name
  | dirPath, FsEntries.nil, p, hp => by cases hp
  | dirPath, FsEntries.cons t ts, p, hp => by
    simp only [Scanner.searchEntries] at hp
    rcases List.mem_append.mp hp with h | h
    · exact searchEntry_files_char dirPath t p h
    · exact searchEntries_files_char dirPath ts p h

end

/-- C7: the walker's output is lexicographically sorted; every emitted path
is a file that passed the path filter (valid extension, no excluded
filename pattern, within the 1 MB ceiling with a successful stat), reached
only through non-excluded directories; an unreadable (non-excluded)
subdirectory contributes no files and exactly the recorded warning; and
the walk of a directory always continues past each entry to the remaining
siblings. -/
theorem C7_walker_contract (rootPath : String) (readable : Bool)
    (entries : FsEntries) :
    List.Sorted stringLe (Scanner.findRouteFiles rootPath readable entries).1 ∧
    (∀ p ∈ (Scanner.findRouteFiles rootPath readable entries).1,
      ∃ (ds : List String) (name : String) (size : Nat) (statOk : Bool),
        (∀ d ∈ ds, Scanner.isExcludedDirectory d = false) ∧
        Scanner.shouldProcessFile name size statOk = true ∧
        p = Scanner.pathJoin (ds.foldl Scanner.pathJoin rootPath) name) ∧
    (∀ (dirPath dname : String) (es : FsEntries),
      Scanner.isExcludedDirectory dname = false →
      Scanner.searchEntry dirPath (FsTree.dir dname false es) =
        ([], ["Warning: Could not read directory " ++ Scanner.pathJoin dirPath dname])) ∧
    (∀ (dirPath : String) (t : FsTree) (ts : FsEntries) (p : String),
      p ∈ (Scanner.searchEntries dirPath ts).1 →
      p ∈ (Scanner.searchEntries dirPath (FsEntries.cons t ts)).1) := by
  refine ⟨?_, ?_, ?_, ?_⟩
  · unfold Scanner.findRouteFiles
    exact List.sorted_insertionSort stringLe _
  · intro p hp
    unfold Scanner.findRouteFiles at hp
    have hp2 : p ∈ (Scanner.searchDirectory rootPath readable entries).1 :=
      ((List.perm_insertionSort stringLe _).mem_iff).mp hp
    unfold Scanner.searchDirectory at hp2
    by_cases hrd : readable = true
    · rw [if_pos hrd] at hp2
      exact searchEntries_files_char rootPath entries p hp2
    · rw [if_neg hrd] at hp2
      cases hp2
  · intro dirPath dname es hex
    simp [Scanner.searchEntry, hex]
  · intro dirPath t ts p hp
    simp only [Scanner.searchEntries]
    exact List.mem_append_right _ hp

/-- Closed witness for C7 on the concrete fixture tree (one excluded
`templates` directory, one accepted route file) plus an unreadable
subdirectory. -/
theorem C7_witness :
    List.Sorted stringLe (Scanner.findRouteFiles "/proj" true walkFixture).1 ∧
    (∃ (ds : List String) (name : String) (size : Nat) (statOk : Bool),
      (∀ d ∈ ds, Scanner.isExcludedDirectory d = false) ∧
      Scanner.shouldProcessFile name size statOk = true ∧
      "/proj/app.js" = Scanner.pathJoin (ds.foldl Scanner.pathJoin "/proj") name) ∧
    Scanner.searchEntry "/proj" (FsTree.dir "api" false FsEntries.nil) =
      ([], ["Warning: Could not read directory " ++ Scanner.pathJoin "/proj" "api"]) :=
  ⟨(C7_walker_contract "/proj" true walkFixture).1,
   (C7_walker_contract "/proj" true walkFixture).2.1 "/proj/app.js" (by decide),
   (C7_walker_contract "/proj" true walkFixture).2.2.1 "/proj" "api" FsEntries.nil (by decide)⟩
